import Mathlib

/-!
Verification of the timber-cpp logging adaptation layer
(`src/include/tmb/tmb.hpp`) against its natural-language specification.

The file shallowly embeds the header's components:

* `tmb.LogLevel` — the severity enumeration (`enum class LogLevel`).
* `tmb.LogContext.to_c` — the call-site context builder, including the
  linear scan for the last path separator.
* `tmb.vformat` — a model of the `std::vformat` subset exercised by the
  layer: literal characters, the empty replacement field, and
  doubled-brace escapes; anything else raises a format error, mirroring
  `std::format_error` thrown at runtime.  Arguments are modelled by their
  rendered character sequences.
* `tmb.formatMessage` — the try/catch recovery block that appears
  verbatim in both `Logger::log` and `internal::log_default_logger`.
* `tmb.Logger` and its operations — the move-only handle, its
  constructor, destructor, move constructor, move assignment, dispatch
  (`log`, `log_impl`), the per-level surface and `set_default_format`.
* `tmb.internal.log_default_logger` — the default-logger dispatch path.

Engine calls (`tmb_log`, `tmb_log_default`, `tmb_logger_create`,
`tmb_logger_destroy`, `tmb_logger_set_default_format`) are opaque
external operations; each embedded function returns the list of engine
calls it performs (`EngineCall`), so "forwards to the engine" is
observable.  Text is represented as `List Char`; C strings hold no NUL,
and machine-int widths of the length casts are not modelled.
-/

namespace tmb

/-- The `enum class LogLevel` from the header, mirroring the engine's
`TMB_LEVEL_*` enumeration one-to-one. -/
inductive LogLevel where
  | None
  | Fatal
  | Error
  | Warning
  | Info
  | Debug
  | Trace
  | All
deriving DecidableEq, Repr

/-- The data `std::source_location` supplies at a call site: file path,
1-based line number and enclosing function name. -/
structure SourceLocation where
  file_name : List Char
  line : Nat
  function_name : List Char
deriving DecidableEq, Repr

/-- The engine's plain-data context record `tmb_log_ctx_t`, as populated
by `LogContext::to_c`.  `message` is the record's own message pointer,
which the layer always leaves null (the text travels separately). -/
structure tmb_log_ctx_t where
  log_level : LogLevel
  line_no : Nat
  filename : List Char
  filename_len : Nat
  filename_base : List Char
  filename_base_len : Nat
  funcname : List Char
  funcname_len : Nat
  message : Option (List Char)
  message_len : Nat
  ts_sec : Nat
  ts_nsec : Nat
  stopwatch_sec : Nat
  stopwatch_nsec : Nat
deriving DecidableEq, Repr

/-- A path-separator character; the scan in `LogContext::to_c` treats
`/` and `\` identically on every platform. -/
def isSep (c : Char) : Bool :=
  c = '/' || c = '\\'

/-- The loop in `LogContext::to_c`:
`for (p = filename; *p; ++p) if (*p=='/'||*p=='\\') base = p+1;`.
`i` is the index of the current character, `acc` the offset recorded in
`base` so far; the result is the final base-name offset. -/
def base_scan : List Char → Nat → Nat → Nat
  | [], _, acc => acc
  | c :: rest, i, acc => base_scan rest (i + 1) (if isSep c then i + 1 else acc)

/-- Offset of the first character after the last path separator
(`base - filename` in the source), `0` when the path has none. -/
def base_offset (p : List Char) : Nat :=
  base_scan p 0 0

/-- The base file name computed by `LogContext::to_c`: the suffix of the
path starting at `base_offset`. -/
def base_name (p : List Char) : List Char :=
  p.drop (base_offset p)

/-- Builder `internal::LogContext::to_c`: builds the engine context record from
the stored level and source location.  Lengths are measured once
(`strlen`), the base name comes from the separator scan, and the
message/timestamp/stopwatch fields are zero-initialised because the
engine fills them. -/
def LogContext.to_c (level : LogLevel) (loc : SourceLocation) : tmb_log_ctx_t :=
  { log_level := level
    line_no := loc.line
    filename := loc.file_name
    filename_len := loc.file_name.length
    filename_base := base_name loc.file_name
    filename_base_len := loc.file_name.length - base_offset loc.file_name
    funcname := loc.function_name
    funcname_len := loc.function_name.length
    message := none
    message_len := 0
    ts_sec := 0
    ts_nsec := 0
    stopwatch_sec := 0
    stopwatch_nsec := 0 }

/-- A `std::format_error`; `what` is the failure description returned by
`e.what()`. -/
structure FormatError where
  what : List Char
deriving DecidableEq, Repr

/-- Model of the `std::vformat` subset the layer exercises: literal
characters are copied, `\x7b\x7d` substitutes the next argument in
order (surplus arguments are ignored, a missing argument throws),
`\x7b\x7b` and `\x7d\x7d` escape a brace, and any other use of a brace
throws `std::format_error` at runtime.  Arg-ids and format specifiers
are outside the modelled subset and conservatively mapped to the
error case. -/
def vformat : List Char → List (List Char) → Except FormatError (List Char)
  | [], _ => .ok []
  | '{' :: '{' :: rest, args => (vformat rest args).map (fun t => '{' :: t)
  | '{' :: '}' :: _, [] => .error ⟨"argument not found".toList⟩
  | '{' :: '}' :: rest, a :: as => (vformat rest as).map (fun t => a ++ t)
  | '{' :: _, _ => .error ⟨"invalid format string".toList⟩
  | '}' :: '}' :: rest, args => (vformat rest args).map (fun t => '}' :: t)
  | '}' :: _, _ => .error ⟨"unmatched right brace in format string".toList⟩
  | c :: rest, args => (vformat rest args).map (fun t => c :: t)

/-- The try/catch block appearing identically in `Logger::log` and
`internal::log_default_logger`: on success the formatted text and the
requested level pass through; a caught `std::format_error` replaces the
text with `"[format error] " + e.what()` and forces the level to
`Error`.  The catch makes the whole dispatch total: no fault reaches
the caller. -/
def formatMessage (level : LogLevel) (fmt : List Char) (args : List (List Char)) :
    List Char × LogLevel :=
  match vformat fmt args with
  | .ok msg => (msg, level)
  | .error e => ("[format error] ".toList ++ e.what, LogLevel.Error)

/-- The logger argument handed to `tmb_log`: the handle's raw resource
pointer (`none` models a null pointer), or the engine's process-wide
default logger for `tmb_log_default`. -/
inductive EmitTarget where
  | handle (h : Option Nat)
  | defaultLogger
deriving DecidableEq, Repr

/-- One invocation of the engine's emit operation: the context record,
the target, and the message delivered as an explicit length plus the
bytes themselves (`"%.*s", (int)msg.size(), msg.data()`). -/
structure EmitCall where
  ctx : tmb_log_ctx_t
  target : EmitTarget
  message : List Char
  message_len : Nat
deriving DecidableEq, Repr

/-- The engine-boundary calls the layer can make. -/
inductive EngineCall where
  | emit (c : EmitCall)
  | destroy (r : Nat)
  | setFormat (target : Option Nat) (fmt : List Char)
deriving DecidableEq, Repr

/-- The `tmb::Logger` handle: its single piece of engine state is the
`_logger` resource pointer (`none` = null = the moved-from/empty
state).  The stored `_name` string is never read after construction and
is omitted. -/
structure Logger where
  _logger : Option Nat
deriving DecidableEq, Repr

/-- Record `tmb_logger_cfg_t`: the creation options recognised by the engine.
The C constant `TMB_LOG_LEVEL_DEBUG` used by the header's default
argument denotes the `Debug` threshold. -/
structure tmb_logger_cfg_t where
  log_level : LogLevel
  enable_colors : Bool
deriving DecidableEq, Repr

/-- The default configuration in `Logger`'s constructor signature:
`{ .log_level = TMB_LOG_LEVEL_DEBUG, .enable_colors = true }`. -/
def defaultLoggerCfg : tmb_logger_cfg_t :=
  { log_level := LogLevel.Debug, enable_colors := true }

/-- The exception thrown by the constructor:
`std::runtime_error("Failed to create logger")`, the spec's
`ResourceCreationFailure`. -/
structure ResourceCreationFailure where
  what : List Char
deriving DecidableEq, Repr

/-- The arguments the constructor passes to `tmb_logger_create`. -/
structure CreateCall where
  name : List Char
  cfg : tmb_logger_cfg_t
deriving DecidableEq, Repr

/-- Constructor `Logger::Logger(name, cfg)`: issues the engine's create call and
either throws `ResourceCreationFailure` (engine returned null,
modelled by `reply = none`) or owns the returned resource.  The first
component records the create call made; the second is the construction
outcome. -/
def Logger.constructWith (name : List Char) (cfg : tmb_logger_cfg_t)
    (reply : Option Nat) : CreateCall × Except ResourceCreationFailure Logger :=
  (⟨name, cfg⟩,
    match reply with
    | none => .error ⟨"Failed to create logger".toList⟩
    | some r => .ok ⟨some r⟩)

/-- Construction with only a name, using the defaulted configuration
argument. -/
def Logger.construct (name : List Char) (reply : Option Nat) :
    CreateCall × Except ResourceCreationFailure Logger :=
  Logger.constructWith name defaultLoggerCfg reply

/-- Destructor `Logger::~Logger()`: calls `tmb_logger_destroy` iff `_logger` is
non-null, then nulls it.  Returns the post-state and the engine calls
made. -/
def Logger.dtor : Logger → Logger × List EngineCall
  | ⟨some r⟩ => (⟨none⟩, [.destroy r])
  | ⟨none⟩ => (⟨none⟩, [])

/-- Move constructor `Logger::Logger(Logger&&)`: the new handle takes `other._logger`,
the source is nulled.  Result is `(destination, source after move)`;
no engine call is made. -/
def Logger.moveCtor (other : Logger) : Logger × Logger :=
  (⟨other._logger⟩, ⟨none⟩)

/-- Move assignment `Logger::operator=(Logger&&)` when `this != &other`: destroys the
currently owned resource (if any), then takes the source's resource and
nulls the source.  Result is `((new this, new other), engine calls)`. -/
def Logger.moveAssign (self other : Logger) :
    (Logger × Logger) × List EngineCall :=
  ((⟨other._logger⟩, ⟨none⟩),
    match self._logger with
    | some r => [.destroy r]
    | none => [])

/-- Move assignment `Logger::operator=(Logger&&)` when `this == &other`: the guard
`if (this != &other)` skips the body entirely. -/
def Logger.moveAssignSelf (self : Logger) : Logger × List EngineCall :=
  (self, [])

/-- Dispatch `Logger::log_impl`: unconditionally invokes
`tmb_log(ctx, _logger, "%.*s", (int)msg.size(), msg.data())` — the
message travels as an explicit length plus data pointer, and the raw
`_logger` pointer (null or not) is passed straight through. -/
def Logger.log_impl (lg : Logger) (level : LogLevel) (loc : SourceLocation)
    (msg : List Char) : List EngineCall :=
  [.emit { ctx := LogContext.to_c level loc
           target := .handle lg._logger
           message := msg
           message_len := msg.length }]

/-- Dispatch `Logger::log`: formats (with local recovery), then dispatches via
`log_impl`. -/
def Logger.log (lg : Logger) (level : LogLevel) (loc : SourceLocation)
    (fmt : List Char) (args : List (List Char)) : List EngineCall :=
  let fm := formatMessage level fmt args
  lg.log_impl fm.2 loc fm.1

/-- Per-level surface `Logger::fatal`. -/
def Logger.fatal (lg : Logger) (loc : SourceLocation) (fmt : List Char)
    (args : List (List Char)) : List EngineCall :=
  lg.log LogLevel.Fatal loc fmt args

/-- Per-level surface `Logger::error`. -/
def Logger.error (lg : Logger) (loc : SourceLocation) (fmt : List Char)
    (args : List (List Char)) : List EngineCall :=
  lg.log LogLevel.Error loc fmt args

/-- Per-level surface `Logger::warning`. -/
def Logger.warning (lg : Logger) (loc : SourceLocation) (fmt : List Char)
    (args : List (List Char)) : List EngineCall :=
  lg.log LogLevel.Warning loc fmt args

/-- Per-level surface `Logger::warn` (alias of `warning`). -/
def Logger.warn (lg : Logger) (loc : SourceLocation) (fmt : List Char)
    (args : List (List Char)) : List EngineCall :=
  lg.log LogLevel.Warning loc fmt args

/-- Per-level surface `Logger::info`. -/
def Logger.info (lg : Logger) (loc : SourceLocation) (fmt : List Char)
    (args : List (List Char)) : List EngineCall :=
  lg.log LogLevel.Info loc fmt args

/-- Per-level surface `Logger::debug`. -/
def Logger.debug (lg : Logger) (loc : SourceLocation) (fmt : List Char)
    (args : List (List Char)) : List EngineCall :=
  lg.log LogLevel.Debug loc fmt args

/-- Per-level surface `Logger::trace`. -/
def Logger.trace (lg : Logger) (loc : SourceLocation) (fmt : List Char)
    (args : List (List Char)) : List EngineCall :=
  lg.log LogLevel.Trace loc fmt args

/-- Member `Logger::set_default_format`: unconditionally invokes
`tmb_logger_set_default_format(this->_logger, fmt)`, passing the raw
(possibly null) pointer.  The engine's boolean reply is not modelled. -/
def Logger.set_default_format (lg : Logger) (fmt : List Char) : List EngineCall :=
  [.setFormat lg._logger fmt]

namespace internal

/-- Function `internal::log_default_logger_impl`: invokes
`tmb_log_default(ctx, "%.*s", (int)msg.size(), msg.data())`. -/
def log_default_logger_impl (level : LogLevel) (loc : SourceLocation)
    (msg : List Char) : List EngineCall :=
  [.emit { ctx := LogContext.to_c level loc
           target := .defaultLogger
           message := msg
           message_len := msg.length }]

/-- Function `internal::log_default_logger`: formats (with the same local
recovery as `Logger::log`), then dispatches to the default logger. -/
def log_default_logger (level : LogLevel) (loc : SourceLocation)
    (fmt : List Char) (args : List (List Char)) : List EngineCall :=
  let fm := formatMessage level fmt args
  log_default_logger_impl fm.2 loc fm.1

end internal

/-- Reference characterisation of the separator scan: the index of the
last path separator in `p`, if any. -/
def lastSep : List Char → Option Nat
  | [] => none
  | c :: rest =>
      match lastSep rest with
      | some j => some (j + 1)
      | none => if isSep c then some 0 else none

/-- Events that drive a collection of `Logger` handles, mirroring the
special member functions of the header.  Handles are addressed by the
position at which they were created. -/
inductive Op where
  | create (r : Nat)
  | moveCtorOp (src : Nat)
  | moveAssignOp (dst src : Nat)
  | dtorOp (i : Nat)
deriving DecidableEq, Repr

/-- State of a run: the `_logger` field of every handle created so far
(moved-from and destructed handles keep a `none` slot), the resources
passed to `tmb_logger_destroy` in order, and the resources the engine
has handed out through `tmb_logger_create`. -/
structure Sys where
  handles : List (Option Nat)
  destroyed : List Nat
  created : List Nat
deriving DecidableEq, Repr

/-- No handles, no engine calls yet. -/
def Sys.init : Sys := ⟨[], [], []⟩

/-- The `_logger` field of handle `i` (`none` when out of range). -/
def Sys.handleAt (s : Sys) (i : Nat) : Option Nat :=
  s.handles.getD i none

/-- Resources a list of engine calls destroys. -/
def destroysOf (calls : List EngineCall) : List Nat :=
  calls.filterMap (fun c => match c with | .destroy r => some r | _ => none)

/-- One event.  `create r` models a successful construction whose
`tmb_logger_create` call returned the resource `r`; the engine never
hands out the same resource twice, so a stale `r` is ignored.  The
other events apply the corresponding special member function of the
header to the addressed handles; `moveAssignOp` with `dst = src` is
the `this == &other` self-assignment, skipped by the guard. -/
def Sys.step (s : Sys) : Op → Sys
  | .create r =>
      if r ∈ s.created then s
      else { s with handles := s.handles ++ [some r], created := r :: s.created }
  | .moveCtorOp src =>
      let m := Logger.moveCtor ⟨s.handleAt src⟩
      { s with handles := (s.handles.set src m.2._logger) ++ [m.1._logger] }
  | .moveAssignOp dst src =>
      if dst = src then s
      else
        let m := Logger.moveAssign ⟨s.handleAt dst⟩ ⟨s.handleAt src⟩
        { s with
            handles := (s.handles.set dst m.1.1._logger).set src m.1.2._logger
            destroyed := s.destroyed ++ destroysOf m.2 }
  | .dtorOp i =>
      let m := Logger.dtor ⟨s.handleAt i⟩
      { s with
          handles := s.handles.set i m.1._logger
          destroyed := s.destroyed ++ destroysOf m.2 }

/-- Run a sequence of events from the initial state. -/
def Sys.run (ops : List Op) : Sys :=
  ops.foldl Sys.step Sys.init

/-- Number of handle slots holding resource `r`. -/
def countOcc (r : Nat) : List (Option Nat) → Nat
  | [] => 0
  | h :: t => (if h = some r then 1 else 0) + countOcc r t

/-- Number of occurrences of `r` in a list of destroyed resources. -/
def countNat (r : Nat) : List Nat → Nat
  | [] => 0
  | h :: t => (if h = r then 1 else 0) + countNat r t

/-- Number of places that currently account for resource `r`: handles
owning it plus destroy calls already issued for it. -/
def Sys.occ (s : Sys) (r : Nat) : Nat :=
  countOcc r s.handles + countNat r s.destroyed

/-- Ownership invariant: every resource is accounted for at most once,
and resources the engine never handed out are not accounted for at
all. -/
def Sys.Inv (s : Sys) : Prop :=
  ∀ r : Nat, s.occ r ≤ 1 ∧ (r ∉ s.created → s.occ r = 0)

/-- A format template assembled from literal pieces joined by empty
replacement fields (`pieces.length - 1` placeholders). -/
def templateOf : List (List Char) → List Char
  | [] => []
  | [p] => p
  | p :: ps => p ++ '{' :: '}' :: templateOf ps

/-- The pieces interleaved with the rendered arguments in order: the
text formatting produces for `templateOf pieces`. -/
def assemble : List (List Char) → List (List Char) → List Char
  | [], _ => []
  | [p], _ => p
  | p :: ps, [] => p ++ assemble ps []
  | p :: ps, a :: as => p ++ a ++ assemble ps as

/-- A concrete call site used by witnesses: file `a/b/c.ext`, line 42,
function `main`. -/
def exampleLoc : SourceLocation :=
  ⟨"a/b/c.ext".toList, 42, "main".toList⟩

/-- A concrete owning handle used by witnesses. -/
def exampleLogger : Logger := ⟨some 7⟩

/-- A concrete moved-from (empty) handle. -/
def emptyLogger : Logger := ⟨none⟩

/-- The template `value=\x7b\x7d` as a character list. -/
def valueTemplate : List Char :=
  ['v', 'a', 'l', 'u', 'e', '=', '{', '}']

end tmb

open tmb

/-- The scan of `LogContext::to_c` computes the offset just past the
last separator, or leaves the accumulator when none occurs. -/
theorem base_scan_spec (p : List Char) : ∀ i acc : Nat,
    base_scan p i acc =
      (match lastSep p with
       | some j => i + j + 1
       | none => acc) := by
  induction p with
  | nil => intro i acc; rfl
  | cons c rest ih =>
    intro i acc
    simp only [base_scan]
    rw [ih]
    simp only [lastSep]
    cases h : lastSep rest with
    | some j =>
      show i + 1 + j + 1 = i + (j + 1) + 1
      omega
    | none =>
      by_cases hc : isSep c <;> simp [hc]

/-- When the scan finds no separator, the path has none. -/
theorem lastSep_eq_none : ∀ (p : List Char), lastSep p = none →
    ∀ c ∈ p, isSep c = false := by
  intro p
  induction p with
  | nil => intro _ c hc; cases hc
  | cons c rest ih =>
    intro h d hd
    simp only [lastSep] at h
    cases hr : lastSep rest with
    | some j => rw [hr] at h; cases h
    | none =>
      rw [hr] at h
      by_cases hc : isSep c
      · rw [if_pos hc] at h; cases h
      · rcases List.mem_cons.mp hd with rfl | hd'
        · exact Bool.not_eq_true _ ▸ (by simpa using hc)
        · exact ih hr d hd'

/-- When the scan finds a separator index, it is in range, it is a
separator, and nothing after it is one. -/
theorem lastSep_eq_some : ∀ (p : List Char) (j : Nat), lastSep p = some j →
    j < p.length ∧ isSep (p.getD j ' ') = true ∧
      ∀ c ∈ p.drop (j + 1), isSep c = false := by
  intro p
  induction p with
  | nil => intro j h; cases h
  | cons c rest ih =>
    intro j h
    simp only [lastSep] at h
    cases hr : lastSep rest with
    | some j' =>
      rw [hr] at h
      obtain rfl : j' + 1 = j := by injection h
      obtain ⟨h1, h2, h3⟩ := ih j' hr
      refine ⟨by simp; omega, ?_, ?_⟩
      · simpa [List.getD_cons_succ] using h2
      · simpa [List.drop_succ_cons] using h3
    | none =>
      rw [hr] at h
      by_cases hc : isSep c
      · rw [if_pos hc] at h
        obtain rfl : 0 = j := by injection h
        refine ⟨by simp, by simpa using hc, ?_⟩
        simpa [List.drop_succ_cons] using lastSep_eq_none rest hr
      · rw [if_neg hc] at h; cases h

/-- The scan's offset in terms of the last-separator index. -/
theorem base_offset_eq (p : List Char) :
    base_offset p =
      (match lastSep p with
       | some j => j + 1
       | none => 0) := by
  unfold base_offset
  rw [base_scan_spec]
  cases h : lastSep p <;> simp

/-- Claim C3: `LogContext::to_c` computes the base file name by one
linear scan for the last `/` or `\` (the two treated identically): when
the path contains a separator the base name is the suffix after the
last one and its length is the path length minus the offset just past
that separator; a path without separators (the empty path included) is
its own base name.  Construction is a total function: it never
fails. -/
theorem to_c_base_name_correct (p : List Char) :
    ((base_name p).length = p.length - base_offset p ∧
      ∀ c ∈ base_name p, isSep c = false) ∧
    ((∃ c ∈ p, isSep c = true) →
      ∃ j, j < p.length ∧ isSep (p.getD j ' ') = true ∧
        (∀ c ∈ p.drop (j + 1), isSep c = false) ∧
        base_offset p = j + 1 ∧ base_name p = p.drop (j + 1)) ∧
    ((∀ c ∈ p, isSep c = false) → base_offset p = 0 ∧ base_name p = p) ∧
    (∀ (level : LogLevel) (loc : SourceLocation),
      (LogContext.to_c level loc).filename_base = base_name loc.file_name ∧
      (LogContext.to_c level loc).filename_base_len =
        loc.file_name.length - base_offset loc.file_name) := by
  refine ⟨⟨List.length_drop _ _, ?_⟩, ?_, ?_, fun level loc => ⟨rfl, rfl⟩⟩
  · intro c hc
    unfold base_name at hc
    rw [base_offset_eq] at hc
    cases h : lastSep p with
    | some j =>
      rw [h] at hc
      exact (lastSep_eq_some p j h).2.2 c hc
    | none =>
      rw [h] at hc
      exact lastSep_eq_none p h c (by simpa using hc)
  · intro hsep
    cases h : lastSep p with
    | some j =>
      obtain ⟨h1, h2, h3⟩ := lastSep_eq_some p j h
      exact ⟨j, h1, h2, h3, by rw [base_offset_eq, h], by
        unfold base_name; rw [base_offset_eq, h]⟩
    | none =>
      obtain ⟨c, hc, hc2⟩ := hsep
      have := lastSep_eq_none p h c hc
      rw [hc2] at this
      cases this
  · intro hnone
    have h : lastSep p = none := by
      cases h : lastSep p with
      | some j =>
        have := (lastSep_eq_some p j h).2.1
        have hmem : p.getD j ' ' ∈ p := by
          have hj := (lastSep_eq_some p j h).1
          rw [List.getD_eq_getElem p ' ' hj]
          exact List.getElem_mem hj
        have := hnone _ hmem
        simp_all
      | none => rfl
    constructor
    · rw [base_offset_eq, h]
    · unfold base_name
      rw [base_offset_eq, h]
      exact List.drop_zero p

/-- Witness for C3 at the spec's concrete scenario `a/b/c.ext`. -/
theorem to_c_base_name_correct_witness :
    (∃ j, j < ("a/b/c.ext".toList).length ∧
        isSep (("a/b/c.ext".toList).getD j ' ') = true ∧
        (∀ c ∈ ("a/b/c.ext".toList).drop (j + 1), isSep c = false) ∧
        base_offset "a/b/c.ext".toList = j + 1 ∧
        base_name "a/b/c.ext".toList = ("a/b/c.ext".toList).drop (j + 1)) ∧
    base_name "a/b/c.ext".toList = "c.ext".toList ∧
    (base_name "a/b/c.ext".toList).length = 5 :=
  ⟨(to_c_base_name_correct "a/b/c.ext".toList).2.1 (by decide), by decide, by decide⟩

/-- Formatting a literal (brace-free) prefix copies it through. -/
theorem vformat_lit (lit : List Char) : ∀ (rest : List Char) (args : List (List Char)),
    (∀ c ∈ lit, c ≠ '{' ∧ c ≠ '}') →
    vformat (lit ++ rest) args = (vformat rest args).map (fun t => lit ++ t) := by
  induction lit with
  | nil =>
    intro rest args _
    cases h : vformat rest args <;> simp [h, Except.map]
  | cons c lit ih =>
    intro rest args hb
    have hc := hb c (List.mem_cons_self c lit)
    have ihr := ih rest args (fun d hd => hb d (List.mem_cons_of_mem c hd))
    simp only [List.cons_append]
    rw [show vformat (c :: (lit ++ rest)) args
          = (vformat (lit ++ rest) args).map (fun t => c :: t) from by
        simp [vformat, hc.1, hc.2]]
    rw [ihr]
    cases h : vformat rest args <;> simp [h, Except.map]

/-- An empty replacement field consumes the next argument. -/
theorem vformat_placeholder (rest : List Char) (a : List Char) (as : List (List Char)) :
    vformat ('{' :: '}' :: rest) (a :: as) = (vformat rest as).map (fun t => a ++ t) := by
  simp [vformat]

/-- A template of brace-free pieces joined by empty replacement fields
formats to the pieces interleaved with the arguments. -/
theorem vformat_templateOf_ok : ∀ (args pieces : List (List Char)),
    (∀ q ∈ pieces, ∀ c ∈ q, c ≠ '{' ∧ c ≠ '}') →
    pieces.length = args.length + 1 →
    vformat (templateOf pieces) args = .ok (assemble pieces args) := by
  intro args
  induction args with
  | nil =>
    intro pieces hb hl
    match pieces, hl with
    | [q], _ =>
      show vformat (templateOf [q]) [] = .ok (assemble [q] [])
      have : vformat (q ++ []) [] = (vformat [] []).map (fun t => q ++ t) :=
        vformat_lit q [] [] (hb q (List.mem_singleton_self q))
      rw [List.append_nil] at this
      rw [show templateOf [q] = q from rfl, this]
      simp [vformat, Except.map, assemble]
  | cons a as ih =>
    intro pieces hb hl
    match pieces, hl with
    | q :: q2 :: qs, hl =>
      have hl' : (q2 :: qs).length = as.length + 1 := by
        simpa using hl
      have hb' : ∀ p ∈ q2 :: qs, ∀ c ∈ p, c ≠ '{' ∧ c ≠ '}' :=
        fun p hp => hb p (List.mem_cons_of_mem q hp)
      have ihq := ih (q2 :: qs) hb' hl'
      show vformat (templateOf (q :: q2 :: qs)) (a :: as) = _
      rw [show templateOf (q :: q2 :: qs) = q ++ '{' :: '}' :: templateOf (q2 :: qs) from rfl]
      rw [vformat_lit q ('{' :: '}' :: templateOf (q2 :: qs)) (a :: as)
        (hb q (List.mem_cons_self q _))]
      rw [vformat_placeholder, ihq]
      show Except.ok (q ++ (a ++ assemble (q2 :: qs) as)) = _
      rw [show assemble (q :: q2 :: qs) (a :: as) = q ++ a ++ assemble (q2 :: qs) as from rfl]
      simp

/-- Claim C8: for every (template, arguments) pair whose formatting
succeeds — here any template of brace-free pieces joined by empty
replacement fields, with one argument per placeholder — the formatted
text is the template with each placeholder replaced by the
corresponding argument, and both dispatch paths send the text at the
caller's requested level, with no escalation. -/
theorem valid_format_no_escalation (lg : Logger) (level : LogLevel) (loc : SourceLocation)
    (pieces args : List (List Char))
    (hb : ∀ q ∈ pieces, ∀ c ∈ q, c ≠ '{' ∧ c ≠ '}')
    (hl : pieces.length = args.length + 1) :
    vformat (templateOf pieces) args = .ok (assemble pieces args) ∧
    Logger.log lg level loc (templateOf pieces) args =
      [.emit { ctx := LogContext.to_c level loc
               target := .handle lg._logger
               message := assemble pieces args
               message_len := (assemble pieces args).length }] ∧
    internal.log_default_logger level loc (templateOf pieces) args =
      [.emit { ctx := LogContext.to_c level loc
               target := .defaultLogger
               message := assemble pieces args
               message_len := (assemble pieces args).length }] := by
  have hok := vformat_templateOf_ok args pieces hb hl
  refine ⟨hok, ?_, ?_⟩
  · simp [Logger.log, formatMessage, hok, Logger.log_impl]
  · simp [internal.log_default_logger, formatMessage, hok,
      internal.log_default_logger_impl]

/-- Witness for C8: the spec's concrete scenario — `info` on the
template `value=\x7b\x7d` with argument `7` emits `value=7` at level
`Info`. -/
theorem valid_format_no_escalation_witness :
    Logger.info exampleLogger exampleLoc valueTemplate ["7".toList] =
      [.emit { ctx := LogContext.to_c LogLevel.Info exampleLoc
               target := .handle (some 7)
               message := "value=7".toList
               message_len := 7 }] := by
  have h := valid_format_no_escalation exampleLogger LogLevel.Info exampleLoc
      ["value=".toList, []] ["7".toList] (by decide) (by decide)
  exact h.2.1

/-- Claim C1: whenever runtime formatting raises a format error, both
dispatch operations (`Logger::log` and the default-logger path) recover
locally: the emitted text is `[format error] ` followed by the
failure's description, the context carries severity `Error` whatever
level was requested (`level` here is arbitrary, `Trace` and `Fatal`
included), and the dispatch still returns normally — the emit call
below is produced instead of any fault propagating to the caller. -/
theorem format_error_recovered_locally (lg : Logger) (level : LogLevel)
    (loc : SourceLocation) (fmt : List Char) (args : List (List Char)) (e : FormatError)
    (h : vformat fmt args = .error e) :
    Logger.log lg level loc fmt args =
      [.emit { ctx := LogContext.to_c LogLevel.Error loc
               target := .handle lg._logger
               message := "[format error] ".toList ++ e.what
               message_len := ("[format error] ".toList ++ e.what).length }] ∧
    internal.log_default_logger level loc fmt args =
      [.emit { ctx := LogContext.to_c LogLevel.Error loc
               target := .defaultLogger
               message := "[format error] ".toList ++ e.what
               message_len := ("[format error] ".toList ++ e.what).length }] := by
  constructor
  · simp [Logger.log, formatMessage, h, Logger.log_impl]
  · simp [internal.log_default_logger, formatMessage, h,
      internal.log_default_logger_impl]

/-- Witness for C1: a `Trace`-level call with a missing argument emits
the diagnostic text at level `Error`. -/
theorem format_error_recovered_locally_witness :
    Logger.log exampleLogger LogLevel.Trace exampleLoc valueTemplate [] =
      [.emit { ctx := LogContext.to_c LogLevel.Error exampleLoc
               target := .handle (some 7)
               message := "[format error] argument not found".toList
               message_len := 33 }] := by
  have h := format_error_recovered_locally exampleLogger LogLevel.Trace exampleLoc
      valueTemplate [] ⟨"argument not found".toList⟩ (by rfl)
  exact h.1

/-- Claim C7: when formatting recovery escalates the severity, the
context handed to emit carries the effective (post-recovery) level
`Error`, not the requested one, on both dispatch paths; and each path
is literally the formatter's output fed into the context-building
dispatch, i.e. the formatter runs before the context is built. -/
theorem ctx_built_with_effective_level (lg : Logger) (level : LogLevel)
    (loc : SourceLocation) (fmt : List Char) (args : List (List Char)) (e : FormatError)
    (h : vformat fmt args = .error e) :
    (formatMessage level fmt args).2 = LogLevel.Error ∧
    Logger.log lg level loc fmt args =
      lg.log_impl (formatMessage level fmt args).2 loc (formatMessage level fmt args).1 ∧
    internal.log_default_logger level loc fmt args =
      internal.log_default_logger_impl (formatMessage level fmt args).2 loc
        (formatMessage level fmt args).1 ∧
    (∃ c : EmitCall, Logger.log lg level loc fmt args = [.emit c] ∧
      c.ctx.log_level = LogLevel.Error ∧
      (level ≠ LogLevel.Error → c.ctx.log_level ≠ level)) ∧
    (∃ c : EmitCall, internal.log_default_logger level loc fmt args = [.emit c] ∧
      c.ctx.log_level = LogLevel.Error ∧
      (level ≠ LogLevel.Error → c.ctx.log_level ≠ level)) := by
  refine ⟨by simp [formatMessage, h], rfl, rfl, ?_, ?_⟩
  · refine ⟨{ ctx := LogContext.to_c LogLevel.Error loc
              target := .handle lg._logger
              message := "[format error] ".toList ++ e.what
              message_len := ("[format error] ".toList ++ e.what).length }, ?_, rfl, ?_⟩
    · simp [Logger.log, formatMessage, h, Logger.log_impl]
    · intro hne
      exact Ne.symm hne
  · refine ⟨{ ctx := LogContext.to_c LogLevel.Error loc
              target := .defaultLogger
              message := "[format error] ".toList ++ e.what
              message_len := ("[format error] ".toList ++ e.what).length }, ?_, rfl, ?_⟩
    · simp [internal.log_default_logger, formatMessage, h,
        internal.log_default_logger_impl]
    · intro hne
      exact Ne.symm hne

/-- Witness for C7: a `Fatal`-level call with a failing template has
effective level `Error`. -/
theorem ctx_built_with_effective_level_witness :
    (formatMessage LogLevel.Fatal valueTemplate []).2 = LogLevel.Error :=
  (ctx_built_with_effective_level exampleLogger LogLevel.Fatal exampleLoc valueTemplate []
      ⟨"argument not found".toList⟩ (by rfl)).1

/-- Claim C6: both dispatch paths hand the engine the formatted text as
an explicit length-plus-bytes pair: the delivered length always equals
the text's length (never a sentinel-terminated measure), for arbitrary
message bytes — the third conjunct spells this out for a message with
an embedded NUL byte, which is delivered in full. -/
theorem emit_is_length_delimited (lg : Logger) (level : LogLevel) (loc : SourceLocation)
    (msg fmt : List Char) (args : List (List Char)) :
    Logger.log_impl lg level loc msg =
      [.emit { ctx := LogContext.to_c level loc
               target := .handle lg._logger
               message := msg
               message_len := msg.length }] ∧
    internal.log_default_logger_impl level loc msg =
      [.emit { ctx := LogContext.to_c level loc
               target := .defaultLogger
               message := msg
               message_len := msg.length }] ∧
    Logger.log_impl lg level loc ('a' :: Char.ofNat 0 :: 'b' :: msg) =
      [.emit { ctx := LogContext.to_c level loc
               target := .handle lg._logger
               message := 'a' :: Char.ofNat 0 :: 'b' :: msg
               message_len := msg.length + 3 }] ∧
    Logger.log lg level loc fmt args =
      [.emit { ctx := LogContext.to_c (formatMessage level fmt args).2 loc
               target := .handle lg._logger
               message := (formatMessage level fmt args).1
               message_len := (formatMessage level fmt args).1.length }] :=
  ⟨rfl, rfl, rfl, rfl⟩

/-- Counterexample to claim C2 as stated: a moved-from (empty) handle's
`log` and `set_default_format` are not no-ops — each still forwards one
call to the engine. -/
theorem moved_from_logger_still_calls_engine :
    Logger.log emptyLogger LogLevel.Info exampleLoc ("hi".toList) [] ≠
      ([] : List EngineCall) ∧
    Logger.set_default_format emptyLogger ("fmt".toList) ≠ ([] : List EngineCall) := by
  decide

/-- Claim C2 (amended): operations on an empty (moved-from) handle are
not no-ops; `log` (hence every per-level call) and `set_default_format`
each still forward one engine call, passing the null resource pointer.
Only the destructor of an empty handle performs no engine call. -/
theorem empty_logger_ops_forward_null (lg : Logger) (h : lg._logger = none)
    (level : LogLevel) (loc : SourceLocation) (fmt fmtStr : List Char)
    (args : List (List Char)) :
    Logger.log lg level loc fmt args =
      [.emit { ctx := LogContext.to_c (formatMessage level fmt args).2 loc
               target := .handle none
               message := (formatMessage level fmt args).1
               message_len := (formatMessage level fmt args).1.length }] ∧
    Logger.set_default_format lg fmtStr = [.setFormat none fmtStr] ∧
    Logger.dtor lg = (⟨none⟩, []) := by
  obtain ⟨x⟩ := lg
  cases h
  exact ⟨rfl, rfl, rfl⟩

/-- Witness for the amended C2 at a concrete empty handle. -/
theorem empty_logger_ops_forward_null_witness :
    Logger.log emptyLogger LogLevel.Info exampleLoc ("hi".toList) [] =
      [.emit { ctx := LogContext.to_c LogLevel.Info exampleLoc
               target := .handle none
               message := "hi".toList
               message_len := 2 }] :=
  (empty_logger_ops_forward_null emptyLogger rfl LogLevel.Info exampleLoc
      ("hi".toList) ("f".toList) []).1

/-- Claim C4: when the engine's create operation returns null, the
constructor raises `ResourceCreationFailure` (it is not recovered
locally — the `Except.error` outcome is the propagated exception), and
no usable handle is produced; the same holds through the
defaulted-configuration constructor. -/
theorem null_create_raises_failure (name : List Char) (cfg : tmb_logger_cfg_t) :
    (Logger.constructWith name cfg none).2 =
      .error ⟨"Failed to create logger".toList⟩ ∧
    (∀ lg : Logger, (Logger.constructWith name cfg none).2 ≠ .ok lg) ∧
    (Logger.construct name none).2 = .error ⟨"Failed to create logger".toList⟩ := by
  refine ⟨rfl, ?_, rfl⟩
  intro lg hcontra
  simp [Logger.constructWith] at hcontra

/-- Witness for C4 at a concrete name and the default configuration. -/
theorem null_create_raises_failure_witness :
    (Logger.construct ("app".toList) none).2 =
      .error ⟨"Failed to create logger".toList⟩ :=
  (null_create_raises_failure ("app".toList) defaultLoggerCfg).2.2

/-- Claim C9: move-assigning into a handle that owns a resource issues
exactly one destroy of that resource (the destroy statement precedes
the pointer transfer in the source), the destination takes the source's
resource and the source becomes empty; self-move-assignment is skipped
by the `this != &other` guard, changing nothing and destroying
nothing. -/
theorem move_assign_destroys_then_takes (self other : Logger) (r : Nat)
    (h : self._logger = some r) :
    Logger.moveAssign self other = ((⟨other._logger⟩, ⟨none⟩), [.destroy r]) ∧
    (destroysOf (Logger.moveAssign self other).2).count r = 1 ∧
    Logger.moveAssignSelf self = (self, []) := by
  obtain ⟨x⟩ := self
  cases h
  refine ⟨rfl, ?_, rfl⟩
  simp [Logger.moveAssign, destroysOf]

/-- Witness for C9 at two concrete owning handles. -/
theorem move_assign_destroys_then_takes_witness :
    Logger.moveAssign ⟨some 1⟩ ⟨some 2⟩ = ((⟨some 2⟩, ⟨none⟩), [.destroy 1]) :=
  (move_assign_destroys_then_takes ⟨some 1⟩ ⟨some 2⟩ 1 rfl).1

/-- Claim C10: constructing a Logger with only a name uses the defaulted
configuration, requesting creation with threshold level `Debug`
(`TMB_LOG_LEVEL_DEBUG`) and colored output enabled, whatever the
engine replies. -/
theorem construct_name_only_uses_debug_and_colors (name : List Char)
    (reply : Option Nat) :
    (Logger.construct name reply).1 =
      { name := name, cfg := { log_level := LogLevel.Debug, enable_colors := true } } ∧
    (Logger.construct name reply).1.cfg = defaultLoggerCfg :=
  ⟨rfl, rfl⟩

/-- Setting one slot does not change what other slots hold. -/
theorem getD_set_of_ne (l : List (Option Nat)) : ∀ (i j : Nat) (v : Option Nat), i ≠ j →
    (l.set i v).getD j none = l.getD j none := by
  induction l with
  | nil => intro i j v _; rfl
  | cons c cs ih =>
    intro i j v hij
    cases i with
    | zero =>
      cases j with
      | zero => exact absurd rfl hij
      | succ k => simp [List.set]
    | succ i' =>
      cases j with
      | zero => simp [List.set]
      | succ k =>
        simp only [List.set, List.getD_cons_succ]
        exact ih i' k v (fun hh => hij (by rw [hh]))

/-- Count bookkeeping for writing one slot: the write removes the old
in-range value's contribution and adds the new one's. -/
theorem countOcc_set_balance (l : List (Option Nat)) : ∀ (i : Nat) (v : Option Nat) (r : Nat),
    countOcc r (l.set i v) + (if i < l.length ∧ l.getD i none = some r then 1 else 0)
      = countOcc r l + (if i < l.length ∧ v = some r then 1 else 0) := by
  induction l with
  | nil => intro i v r; simp
  | cons c cs ih =>
    intro i v r
    cases i with
    | zero =>
      simp only [List.set, List.getD_cons_zero, List.length_cons, countOcc]
      by_cases h1 : c = some r <;> by_cases h2 : v = some r <;>
        simp [h1, h2, Nat.succ_pos] <;> omega
    | succ i' =>
      simp only [List.set, List.getD_cons_succ, List.length_cons, countOcc]
      have := ih i' v r
      by_cases h1 : c = some r <;> by_cases hlen : i' < cs.length <;>
        simp [h1, hlen, Nat.succ_lt_succ_iff] at this ⊢ <;> omega

/-- Counting `countOcc` distributes over append. -/
theorem countOcc_append (r : Nat) : ∀ (l1 l2 : List (Option Nat)),
    countOcc r (l1 ++ l2) = countOcc r l1 + countOcc r l2 := by
  intro l1 l2
  induction l1 with
  | nil => simp [countOcc]
  | cons c cs ih =>
    show countOcc r (c :: (cs ++ l2)) = countOcc r (c :: cs) + countOcc r l2
    simp only [countOcc, ih]
    omega

/-- Counting `countNat` distributes over append. -/
theorem countNat_append (r : Nat) : ∀ (l1 l2 : List Nat),
    countNat r (l1 ++ l2) = countNat r l1 + countNat r l2 := by
  intro l1 l2
  induction l1 with
  | nil => simp [countNat]
  | cons c cs ih =>
    show countNat r (c :: (cs ++ l2)) = countNat r (c :: cs) + countNat r l2
    simp only [countNat, ih]
    omega

/-- A slot that holds a resource is in range. -/
theorem getD_some_lt (l : List (Option Nat)) : ∀ (i : Nat) (r : Nat),
    l.getD i none = some r → i < l.length := by
  intro i r h
  by_contra hc
  rw [List.getD_eq_default _ _ (Nat.le_of_not_lt hc)] at h
  cases h

/-- Stepping `step` on a fresh creation appends an owning slot and records the
resource. -/
theorem step_create_eq (s : Sys) (r0 : Nat) (hmem : r0 ∉ s.created) :
    Sys.step s (.create r0) =
      { s with handles := s.handles ++ [some r0], created := r0 :: s.created } := by
  simp [Sys.step, hmem]

/-- Stepping `step` on a stale creation does nothing. -/
theorem step_create_stale (s : Sys) (r0 : Nat) (hmem : r0 ∈ s.created) :
    Sys.step s (.create r0) = s := by
  simp [Sys.step, hmem]

/-- Stepping `step` on a move construction transfers the slot to a fresh handle. -/
theorem step_moveCtor_eq (s : Sys) (src : Nat) :
    Sys.step s (.moveCtorOp src) =
      { s with handles := (s.handles.set src none) ++ [s.handleAt src] } := by
  simp [Sys.step, Logger.moveCtor]

/-- Stepping `step` on self-move-assignment does nothing. -/
theorem step_moveAssign_self (s : Sys) (i : Nat) :
    Sys.step s (.moveAssignOp i i) = s := by
  simp [Sys.step]

/-- Stepping `step` on move assignment into an empty handle transfers the slot
and destroys nothing. -/
theorem step_moveAssign_none (s : Sys) (dst src : Nat) (hds : dst ≠ src)
    (hgd : s.handleAt dst = none) :
    Sys.step s (.moveAssignOp dst src) =
      { s with handles := (s.handles.set dst (s.handleAt src)).set src none } := by
  simp [Sys.step, hds, Logger.moveAssign, hgd, destroysOf]

/-- Stepping `step` on move assignment into an owning handle destroys the
owned resource, then transfers the slot. -/
theorem step_moveAssign_some (s : Sys) (dst src r0 : Nat) (hds : dst ≠ src)
    (hgd : s.handleAt dst = some r0) :
    Sys.step s (.moveAssignOp dst src) =
      { s with handles := (s.handles.set dst (s.handleAt src)).set src none
               destroyed := s.destroyed ++ [r0] } := by
  simp [Sys.step, hds, Logger.moveAssign, hgd, destroysOf]

/-- Stepping `step` on destruction of an empty handle makes no engine call. -/
theorem step_dtor_none (s : Sys) (i : Nat) (hg : s.handleAt i = none) :
    Sys.step s (.dtorOp i) = { s with handles := s.handles.set i none } := by
  simp [Sys.step, hg, Logger.dtor, destroysOf]

/-- Stepping `step` on destruction of an owning handle records one destroy. -/
theorem step_dtor_some (s : Sys) (i r0 : Nat) (hg : s.handleAt i = some r0) :
    Sys.step s (.dtorOp i) =
      { s with handles := s.handles.set i none
               destroyed := s.destroyed ++ [r0] } := by
  simp [Sys.step, hg, Logger.dtor, destroysOf]

/-- A move construction does not change any resource's account. -/
theorem occ_moveCtor (s : Sys) (src r : Nat) :
    (Sys.step s (.moveCtorOp src)).occ r = s.occ r := by
  rw [step_moveCtor_eq]
  show countOcc r ((s.handles.set src none) ++ [s.handleAt src]) + countNat r s.destroyed
      = countOcc r s.handles + countNat r s.destroyed
  rw [countOcc_append]
  have hb := countOcc_set_balance s.handles src none r
  have h2 : ¬ (src < s.handles.length ∧ (none : Option Nat) = some r) :=
    fun hcon => by cases hcon.2
  rw [if_neg h2] at hb
  by_cases hg : s.handleAt src = some r
  · have hg' : s.handles.getD src none = some r := hg
    have hlt := getD_some_lt s.handles src r hg'
    rw [if_pos ⟨hlt, hg'⟩] at hb
    have hc1 : countOcc r [s.handleAt src] = 1 := by simp [countOcc, hg]
    omega
  · have h1 : ¬ (src < s.handles.length ∧ s.handles.getD src none = some r) :=
      fun hcon => hg hcon.2
    rw [if_neg h1] at hb
    have hc0 : countOcc r [s.handleAt src] = 0 := by simp [countOcc, hg]
    omega

/-- A destruction does not change any resource's account: the destroyed
resource moves from the handle column to the destroyed column. -/
theorem occ_dtor (s : Sys) (i r : Nat) :
    (Sys.step s (.dtorOp i)).occ r = s.occ r := by
  cases hg : s.handleAt i with
  | none =>
    rw [step_dtor_none s i hg]
    show countOcc r (s.handles.set i none) + countNat r s.destroyed
        = countOcc r s.handles + countNat r s.destroyed
    have hb := countOcc_set_balance s.handles i none r
    have hg' : s.handles.getD i none = none := hg
    have h1 : ¬ (i < s.handles.length ∧ s.handles.getD i none = some r) := by
      intro hcon
      rw [hg'] at hcon
      cases hcon.2
    have h2 : ¬ (i < s.handles.length ∧ (none : Option Nat) = some r) :=
      fun hcon => by cases hcon.2
    rw [if_neg h1, if_neg h2] at hb
    omega
  | some r0 =>
    rw [step_dtor_some s i r0 hg]
    show countOcc r (s.handles.set i none) + countNat r (s.destroyed ++ [r0])
        = countOcc r s.handles + countNat r s.destroyed
    have hg' : s.handles.getD i none = some r0 := hg
    have hlt : i < s.handles.length := getD_some_lt s.handles i r0 hg'
    have hb := countOcc_set_balance s.handles i none r
    have h2 : ¬ (i < s.handles.length ∧ (none : Option Nat) = some r) :=
      fun hcon => by cases hcon.2
    rw [if_neg h2] at hb
    rw [countNat_append]
    by_cases hr : r0 = r
    · subst hr
      rw [if_pos ⟨hlt, hg'⟩] at hb
      have hone : countNat r0 [r0] = 1 := by simp [countNat]
      omega
    · have h1 : ¬ (i < s.handles.length ∧ s.handles.getD i none = some r) := by
        intro hcon
        rw [hg'] at hcon
        exact hr (Option.some.inj hcon.2)
      rw [if_neg h1] at hb
      have hzero : countNat r [r0] = 0 := by simp [countNat, hr]
      omega

/-- Move assignment never increases a resource's account: a destroyed
target resource moves columns, a transferred source resource changes
slot, and an out-of-range access loses nothing it had. -/
theorem occ_moveAssign_le (s : Sys) (dst src r : Nat) :
    (Sys.step s (.moveAssignOp dst src)).occ r ≤ s.occ r := by
  by_cases hds : dst = src
  · subst hds
    rw [step_moveAssign_self]
  · have hlen1 : (s.handles.set dst (s.handleAt src)).length = s.handles.length :=
      List.length_set s.handles dst _
    have hgetsrc : (s.handles.set dst (s.handleAt src)).getD src none
        = s.handles.getD src none :=
      getD_set_of_ne s.handles dst src _ hds
    have hb1 := countOcc_set_balance (s.handles.set dst (s.handleAt src)) src none r
    rw [hlen1, hgetsrc] at hb1
    have hn2 : ¬ (src < s.handles.length ∧ (none : Option Nat) = some r) :=
      fun hcon => by cases hcon.2
    rw [if_neg hn2] at hb1
    have hb2 := countOcc_set_balance s.handles dst (s.handleAt src) r
    have hsrcle : (if src < s.handles.length ∧ s.handles.getD src none = some r then 1 else 0)
        ≥ (if dst < s.handles.length ∧ s.handleAt src = some r then 1 else 0) := by
      by_cases hc : dst < s.handles.length ∧ s.handleAt src = some r
      · have hg' : s.handles.getD src none = some r := hc.2
        rw [if_pos hc, if_pos ⟨getD_some_lt s.handles src r hg', hg'⟩]
      · rw [if_neg hc]
        omega
    cases hgd : s.handleAt dst with
    | none =>
      rw [step_moveAssign_none s dst src hds hgd]
      show countOcc r ((s.handles.set dst (s.handleAt src)).set src none)
            + countNat r s.destroyed
          ≤ countOcc r s.handles + countNat r s.destroyed
      have hgd' : s.handles.getD dst none = none := hgd
      have hn3 : ¬ (dst < s.handles.length ∧ s.handles.getD dst none = some r) := by
        intro hcon
        rw [hgd'] at hcon
        cases hcon.2
      rw [if_neg hn3] at hb2
      omega
    | some r0 =>
      rw [step_moveAssign_some s dst src r0 hds hgd]
      show countOcc r ((s.handles.set dst (s.handleAt src)).set src none)
            + countNat r (s.destroyed ++ [r0])
          ≤ countOcc r s.handles + countNat r s.destroyed
      have hgd' : s.handles.getD dst none = some r0 := hgd
      have hltd : dst < s.handles.length := getD_some_lt s.handles dst r0 hgd'
      rw [countNat_append]
      by_cases hr : r0 = r
      · subst hr
        rw [if_pos ⟨hltd, hgd'⟩] at hb2
        have hone : countNat r0 [r0] = 1 := by simp [countNat]
        omega
      · have hn3 : ¬ (dst < s.handles.length ∧ s.handles.getD dst none = some r) := by
          intro hcon
          rw [hgd'] at hcon
          exact hr (Option.some.inj hcon.2)
        rw [if_neg hn3] at hb2
        have hzero : countNat r [r0] = 0 := by simp [countNat, hr]
        omega

/-- Only creation extends the record of created resources. -/
theorem created_moveCtor (s : Sys) (src : Nat) :
    (Sys.step s (.moveCtorOp src)).created = s.created := by
  rw [step_moveCtor_eq]

/-- Destruction leaves the record of created resources unchanged. -/
theorem created_dtor (s : Sys) (i : Nat) :
    (Sys.step s (.dtorOp i)).created = s.created := by
  cases hg : s.handleAt i with
  | none => rw [step_dtor_none s i hg]
  | some r0 => rw [step_dtor_some s i r0 hg]

/-- Move assignment leaves the record of created resources unchanged. -/
theorem created_moveAssign (s : Sys) (dst src : Nat) :
    (Sys.step s (.moveAssignOp dst src)).created = s.created := by
  by_cases hds : dst = src
  · subst hds; rw [step_moveAssign_self]
  · cases hgd : s.handleAt dst with
    | none => rw [step_moveAssign_none s dst src hds hgd]
    | some r0 => rw [step_moveAssign_some s dst src r0 hds hgd]

/-- Every event preserves the ownership invariant. -/
theorem inv_step (s : Sys) (op : Op) (h : s.Inv) : (Sys.step s op).Inv := by
  cases op with
  | create r0 =>
    by_cases hmem : r0 ∈ s.created
    · rw [step_create_stale s r0 hmem]; exact h
    · intro r
      rw [step_create_eq s r0 hmem]
      show countOcc r (s.handles ++ [some r0]) + countNat r s.destroyed ≤ 1 ∧
        (r ∉ r0 :: s.created →
          countOcc r (s.handles ++ [some r0]) + countNat r s.destroyed = 0)
      rw [countOcc_append]
      by_cases hr : r0 = r
      · subst hr
        have h0 : countOcc r0 s.handles + countNat r0 s.destroyed = 0 := (h r0).2 hmem
        have hone : countOcc r0 [some r0] = 1 := by simp [countOcc]
        constructor
        · omega
        · intro hnot
          exact absurd (List.mem_cons_self r0 s.created) hnot
      · have hzero : countOcc r [some r0] = 0 := by simp [countOcc, hr]
        have h1 : countOcc r s.handles + countNat r s.destroyed ≤ 1 := (h r).1
        constructor
        · omega
        · intro hnot
          have hr' : r ∉ s.created := fun hc => hnot (List.mem_cons_of_mem r0 hc)
          have h2 : countOcc r s.handles + countNat r s.destroyed = 0 := (h r).2 hr'
          omega
  | moveCtorOp src =>
    intro r
    rw [Sys.Inv] at h
    have hocc := occ_moveCtor s src r
    have hcr := created_moveCtor s src
    rw [hocc, hcr]
    exact h r
  | moveAssignOp dst src =>
    intro r
    have hocc := occ_moveAssign_le s dst src r
    have hcr := created_moveAssign s dst src
    rw [hcr]
    constructor
    · exact le_trans hocc (h r).1
    · intro hnot
      have h2 := (h r).2 hnot
      omega
  | dtorOp i =>
    intro r
    have hocc := occ_dtor s i r
    have hcr := created_dtor s i
    rw [hocc, hcr]
    exact h r

/-- The empty system satisfies the ownership invariant. -/
theorem inv_init : Sys.init.Inv := by
  intro r
  exact ⟨by simp [Sys.init, Sys.occ, countOcc, countNat], fun _ => rfl⟩

/-- The invariant holds along any run. -/
theorem inv_foldl : ∀ (ops : List Op) (s : Sys), s.Inv → (ops.foldl Sys.step s).Inv := by
  intro ops
  induction ops with
  | nil => intro s hs; exact hs
  | cons op rest ih =>
    intro s hs
    exact ih _ (inv_step s op hs)

/-- The invariant holds after any sequence of events. -/
theorem inv_run (ops : List Op) : (Sys.run ops).Inv :=
  inv_foldl ops Sys.init inv_init

/-- Claim C5: over any sequence of constructions, move constructions,
move assignments and destructions, the engine's destroy operation is
invoked at most once per created resource; in particular destructing a
moved-from handle never issues a second destroy of the resource that
was transferred away. -/
theorem destroy_called_at_most_once (ops : List Op) (r : Nat) :
    countNat r (Sys.run ops).destroyed ≤ 1 := by
  have h := (inv_run ops r).1
  have hdef : (Sys.run ops).occ r
      = countOcc r (Sys.run ops).handles + countNat r (Sys.run ops).destroyed := rfl
  omega
